import Mathlib

/-!
Verification development for the Guandan server core
(`src/shared/rules.ts`, `src/server/game.ts`, `src/server/match.ts`).

The TypeScript source is shallowly embedded: pure functions become Lean
functions, the mutating handlers of `class Game` and `class Match` become
explicit state-passing functions, and socket/timer side effects (broadcast,
chat, scheduling) are dropped since they do not change the game state.
JavaScript numbers appearing here are naturals, integers (where the source
uses `-1` sentinels) or rationals (where the source compares the fractional
bomb-ladder score `5.5`).
-/

/-- Modelled from the spec: `src/shared/types.ts` is not under `src/`.
The spec lists suits Spades, Hearts, Clubs, Diamonds, Joker; the TS enum is
numeric (hands are sorted by `b.suit - a.suit`), so suits are naturals in
declaration order.  Only equality between suit values matters below. -/
def Spades : ℕ := 0

/-- Modelled from the spec: the Hearts suit (the suit making a level card wild). -/
def Hearts : ℕ := 1

/-- Modelled from the spec: the Clubs suit. -/
def Clubs : ℕ := 2

/-- Modelled from the spec: the Diamonds suit. -/
def Diamonds : ℕ := 3

/-- Modelled from the spec: the Joker suit. -/
def JokerSuit : ℕ := 4

/-- Modelled from the spec: ranks are numeric, Two..King = 2..13, Ace = 14,
SmallJoker = 15, BigJoker = 16 (`game.ts` comments `Rank.BigJoker = 16`;
`rules.ts` compares ranks against `Rank.Ace` = 14 numerically). -/
def RankAce : ℕ := 14

/-- Modelled from the spec: the SmallJoker rank value. -/
def RankSmallJoker : ℕ := 15

/-- Modelled from the spec: the BigJoker rank value. -/
def RankBigJoker : ℕ := 16

/-- A card as in `src/shared/types.ts` (modelled from the spec: suit, rank, a
stable identity tag, and the derived flags `isLevelCard` / `isWild` computed
from the deal's level).  The optional TS flags default to `false`. -/
structure Card where
  suit : ℕ
  rank : ℕ
  id : String
  isLevelCard : Bool := false
  isWild : Bool := false
deriving DecidableEq, Repr, Inhabited

/-- Hand types of `src/shared/types.ts` (modelled from the spec's list). -/
inductive HandType where
  | Single
  | Pair
  | Trips
  | TripsWithPair
  | Straight
  | Tube
  | Plate
  | Bomb
  | StraightFlush
  | FourKings
deriving DecidableEq, Repr

/-- A hand classification `{ type, cards, value, bombCount? }` as produced by
`getHandType` in `src/shared/rules.ts`. -/
structure Hand where
  type : HandType
  cards : List Card
  value : ℕ
  bombCount : Option ℕ := none
deriving DecidableEq, Repr

/-- `getLogicValue` of `src/shared/rules.ts`: jokers above level card above
Ace above the numbered ranks, with the checks in source order. -/
def getLogicValue (rank : ℕ) (level : ℕ) : ℕ :=
  if rank = RankSmallJoker then 20
  else if rank = RankBigJoker then 21
  else if rank = level then 19
  else if rank = RankAce then 14
  else rank

/-- The JS comparator of `sortCards` is `≤ 0` exactly on this relation:
descending logic value, ties broken by descending suit (ties again keep the
original order, which the stable `List.insertionSort` preserves exactly as
the stable JS `Array.prototype.sort` does). -/
def cardLe (level : ℕ) (a b : Card) : Prop :=
  getLogicValue b.rank level < getLogicValue a.rank level ∨
    (getLogicValue b.rank level = getLogicValue a.rank level ∧ b.suit ≤ a.suit)

instance cardLeDecidable (level : ℕ) : DecidableRel (cardLe level) := fun a b => by
  unfold cardLe
  infer_instance

/-- `sortCards` of `src/shared/rules.ts`: stable sort, descending by logic
value then by suit. -/
def sortCards (cards : List Card) (level : ℕ) : List Card :=
  List.insertionSort (cardLe level) cards

/-- Ascending-by-rank stable sort used by the Tube/Plate block of
`getHandType` (JS comparator `a.rank - b.rank`). -/
def rankAscLe (a b : Card) : Prop := a.rank ≤ b.rank

instance rankAscLeDecidable : DecidableRel rankAscLe := fun a b => by
  unfold rankAscLe
  infer_instance

/-- Descending numeric sort used for `uniqueValues`
(JS `Array.sort((a, b) => b - a)` on distinct keys). -/
def natDescLe (a b : ℕ) : Prop := b ≤ a

instance natDescLeDecidable : DecidableRel natDescLe := fun a b => by
  unfold natDescLe
  infer_instance

/-- Descending sort of a list of naturals (distinct in all uses, so any
consistent sort yields the JS result). -/
def sortNatDesc (l : List ℕ) : List ℕ :=
  List.insertionSort natDescLe l

/-- `Math.max(...l, 0)` over a list of naturals. -/
def listMax (l : List ℕ) : ℕ := l.foldr Nat.max 0

/-- `Math.min(...l)` over a nonempty list of naturals all `≤ 14` (every call
site filters ranks to `≤ 14` first, so the base `15` never wins). -/
def listMin (l : List ℕ) : ℕ := l.foldr Nat.min 15

/-- `getLargestCard` of `src/shared/rules.ts`: head of the descending sort
(the TS source indexes `sorted[0]`; callers only use it on nonempty hands). -/
def getLargestCard (cards : List Card) (level : ℕ) : Card :=
  (sortCards cards level).headD default

/-- Block 1 of `getHandType`: Four Kings (sky bomb), exactly two SmallJokers
plus two BigJokers in a 4-card hand.  `some r` means the block returned `r`
(`some none` would be an explicit `return null`), `none` means fall through. -/
def ght1FourKings (cards : List Card) (len : ℕ) : Option (Option Hand) :=
  if len = 4 ∧
      (cards.filter (fun c => c.rank == RankSmallJoker)).length = 2 ∧
      (cards.filter (fun c => c.rank == RankBigJoker)).length = 2 then
    some (some { type := .FourKings, cards := cards, value := 999 })
  else none

/-- Block 2 of `getHandType`: a single card (a wild single counts as the
level card, logic value 19). -/
def ght2Single (cards : List Card) (len : ℕ) (level : ℕ) : Option (Option Hand) :=
  if len = 1 then
    let c := cards.headD default
    some (some { type := .Single, cards := cards,
                 value := if c.isWild then 19 else getLogicValue c.rank level })
  else none

/-- Block 3 of `getHandType`: pairs, with one wild substituting only for
ranks `≤ Ace` (an explicit `return null` otherwise). -/
def ght3Pair (cards : List Card) (len : ℕ) (wildCount : ℕ) (nonWilds : List Card)
    (uniqueValues : List ℕ) : Option (Option Hand) :=
  if len = 2 then
    if wildCount = 2 then
      some (some { type := .Pair, cards := cards, value := 19 })
    else if wildCount = 1 then
      if RankAce < (nonWilds.headD default).rank then some none
      else some (some { type := .Pair, cards := cards, value := uniqueValues.headD 0 })
    else if uniqueValues.length = 1 then
      some (some { type := .Pair, cards := cards, value := uniqueValues.headD 0 })
    else none
  else none

/-- Block 4 of `getHandType`: trips with the same wild-absorption rule
(an explicit `return null` for values above the level card). -/
def ght4Trips (cards : List Card) (len : ℕ) (wildCount : ℕ)
    (uniqueValues : List ℕ) (counts : ℕ → ℕ) : Option (Option Hand) :=
  if len = 3 then
    if wildCount = 3 then
      some (some { type := .Trips, cards := cards, value := 19 })
    else if uniqueValues.length = 1 ∧ counts (uniqueValues.headD 0) + wildCount = 3 then
      if 19 < uniqueValues.headD 0 then some none
      else some (some { type := .Trips, cards := cards, value := uniqueValues.headD 0 })
    else none
  else none

/-- The `for (const tVal of uniqueValues)` loop of the full-house block:
the first candidate triple value that leaves exactly one other value able to
absorb the remaining wilds into a pair wins. -/
def twpLoop (cards : List Card) (wildCount : ℕ) (counts : ℕ → ℕ)
    (uniqueValues : List ℕ) : List ℕ → Option Hand
  | [] => none
  | tVal :: rest =>
    if 19 < tVal then twpLoop cards wildCount counts uniqueValues rest
    else
      let tCount := counts tVal
      let wildsForTrips := 3 - tCount
      if wildsForTrips ≤ wildCount then
        let remWilds := wildCount - wildsForTrips
        let otherVals := uniqueValues.filter (fun v => !(v == tVal))
        if otherVals.length = 1 then
          let pVal := otherVals.headD 0
          if 19 < pVal then twpLoop cards wildCount counts uniqueValues rest
          else if 2 ≤ counts pVal + remWilds then
            some { type := .TripsWithPair, cards := cards, value := tVal }
          else twpLoop cards wildCount counts uniqueValues rest
        else twpLoop cards wildCount counts uniqueValues rest
      else twpLoop cards wildCount counts uniqueValues rest

/-- Block 5 of `getHandType`: a 5-card hand that reduces to one rank is a
5-bomb (`uniqueValues[0] || 19`); otherwise try trips-with-pair. -/
def ght5FullHouse (cards : List Card) (len : ℕ) (wildCount : ℕ)
    (uniqueValues : List ℕ) (counts : ℕ → ℕ) (maxCount : ℕ) : Option (Option Hand) :=
  if len = 5 then
    if maxCount + wildCount = 5 then
      some (some { type := .Bomb, cards := cards,
                   value := match uniqueValues with
                            | v :: _ => v
                            | [] => 19,
                   bombCount := some 5 })
    else
      match twpLoop cards wildCount counts uniqueValues uniqueValues with
      | some h => some (some h)
      | none => none
  else none

/-- The straight-value computation of the straight block: `val` starts at
`-1`; an A-high window sets it to `min + 4` when that top stays `≤ 14`; an
A-low window (Ace read as 1) sets it to `5` when `val` is unset or larger. -/
def computeStraightVal (ranks : List ℕ) : ℤ :=
  let ranksLowA := ranks.map (fun r => if r = RankAce then 1 else r)
  let maxR := listMax ranks
  let minR := listMin ranks
  let v1 : ℤ :=
    if maxR - minR ≤ 4 then
      if minR + 4 ≤ 14 then (minR : ℤ) + 4 else -1
    else -1
  if RankAce ∈ ranks then
    if listMax ranksLowA - listMin ranksLowA ≤ 4 then
      if v1 = -1 ∨ (5 : ℤ) > v1 then 5 else v1
    else v1
  else v1

/-- Block 6 of `getHandType`: the straight / straight-flush block.  Ranks are
taken from the NON-wild cards only (filtered to `≤ Ace`); if they are distinct
and fit a five-window, the hand is a StraightFlush when the non-wild cards
show at most one distinct suit, else a Straight.  An all-wild 5-card hand is a
Straight of value 14. -/
def ght6Straight (cards : List Card) (level : ℕ) (len : ℕ)
    (nonWilds : List Card) : Option (Option Hand) :=
  if len = 5 then
    let ranks := (nonWilds.map (fun c => if c.rank = level then level else c.rank)).filter
      (fun r => r ≤ RankAce)
    if !(nonWilds.any (fun c => RankAce < c.rank)) then
      if ranks.dedup.length = ranks.length then
        if ranks = [] then
          some (some { type := .Straight, cards := cards, value := 14 })
        else
          let v := computeStraightVal ranks
          if v ≠ -1 then
            if ((nonWilds.map Card.suit).dedup.length ≤ 1) then
              some (some { type := .StraightFlush, cards := cards,
                           value := v.toNat, bombCount := some 5 })
            else
              some (some { type := .Straight, cards := cards, value := v.toNat })
          else none
      else none
    else none
  else none

/-- Block 7 of `getHandType`: bombs of 4 or more cards sharing one absorbed
rank (`uniqueValues[0] || 19`, rejected above the level card). -/
def ght7Bomb (cards : List Card) (len : ℕ) (wildCount : ℕ)
    (uniqueValues : List ℕ) (maxCount : ℕ) : Option (Option Hand) :=
  if 4 ≤ len then
    if maxCount + wildCount = len then
      if uniqueValues.length ≤ 1 then
        let v := match uniqueValues with
                 | u :: _ => u
                 | [] => 19
        if v ≤ 19 then
          some (some { type := .Bomb, cards := cards, value := v, bombCount := some len })
        else none
      else none
    else none
  else none

/-- The Plate check of block 8 (two natural consecutive triples). -/
def ght8Plate (cards : List Card) (s : List Card) : Option (Option Hand) :=
  let s0 := s.getD 0 default
  let s1 := s.getD 1 default
  let s2 := s.getD 2 default
  let s3 := s.getD 3 default
  let s4 := s.getD 4 default
  let s5 := s.getD 5 default
  if s0.rank = s1.rank ∧ s1.rank = s2.rank ∧ s3.rank = s4.rank ∧ s4.rank = s5.rank then
    if s3.rank = s0.rank + 1 then
      some (some { type := .Plate, cards := cards, value := s3.rank })
    else none
  else none

/-- Block 8 of `getHandType`: natural 6-card Tubes (three consecutive pairs,
with the 2-2-3-3-A-A special case) and Plates. -/
def ght8TubePlate (cards : List Card) (len : ℕ) (wildCount : ℕ) : Option (Option Hand) :=
  if len = 6 ∧ wildCount = 0 then
    let s := List.insertionSort rankAscLe cards
    let s0 := s.getD 0 default
    let s2 := s.getD 2 default
    let s4 := s.getD 4 default
    if s0.rank = (s.getD 1 default).rank ∧ s2.rank = (s.getD 3 default).rank ∧
        s4.rank = (s.getD 5 default).rank then
      if s2.rank = s0.rank + 1 ∧ s4.rank = s2.rank + 1 then
        some (some { type := .Tube, cards := cards, value := s4.rank })
      else if s4.rank = RankAce ∧ s0.rank = 2 ∧ s2.rank = 3 then
        some (some { type := .Tube, cards := cards, value := 3 })
      else ght8Plate cards s
    else ght8Plate cards s
  else none

/-- `getHandType` of `src/shared/rules.ts`: classify a candidate play at the
given level, trying the source's blocks in order; `none` is TS `null`. -/
def getHandType (cards : List Card) (level : ℕ) : Option Hand :=
  if cards = [] then none
  else
    let len := cards.length
    let wildCount := (cards.filter (fun c => c.isWild)).length
    let nonWilds := cards.filter (fun c => !c.isWild)
    let vals := nonWilds.map (fun c => getLogicValue c.rank level)
    let uniqueValues := sortNatDesc vals.dedup
    let counts := fun v => vals.count v
    let maxCount := listMax (vals.dedup.map (fun v => vals.count v))
    match ght1FourKings cards len with
    | some r => r
    | none =>
    match ght2Single cards len level with
    | some r => r
    | none =>
    match ght3Pair cards len wildCount nonWilds uniqueValues with
    | some r => r
    | none =>
    match ght4Trips cards len wildCount uniqueValues counts with
    | some r => r
    | none =>
    match ght5FullHouse cards len wildCount uniqueValues counts maxCount with
    | some r => r
    | none =>
    match ght6Straight cards level len nonWilds with
    | some r => r
    | none =>
    match ght7Bomb cards len wildCount uniqueValues maxCount with
    | some r => r
    | none =>
    match ght8TubePlate cards len wildCount with
    | some r => r
    | none => none

/-- The `getScore` helper of `compareHands`: a StraightFlush scores `5.5` on
the bomb ladder, a bomb scores its card count (`h.bombCount!`; hands built by
`getHandType` always carry `bombCount` for Bomb and StraightFlush, the
`getD 0` is for malformed hands only). -/
def getScore (h : Hand) : ℚ :=
  if h.type = HandType.StraightFlush then 11 / 2 else (h.bombCount.getD 0 : ℚ)

/-- `compareHands` of `src/shared/rules.ts`: positive iff `handA` beats
`handB`; FourKings first, then the bomb ladder, then same-type same-length
value comparison; incomparable pairs yield 0. -/
def compareHands (handA handB : Hand) : ℚ :=
  if handA.type = HandType.FourKings then 1
  else if handB.type = HandType.FourKings then -1
  else
    let isBombA := handA.type = HandType.Bomb ∨ handA.type = HandType.StraightFlush
    let isBombB := handB.type = HandType.Bomb ∨ handB.type = HandType.StraightFlush
    if isBombA ∧ ¬isBombB then 1
    else if ¬isBombA ∧ isBombB then -1
    else if isBombA ∧ isBombB then
      let sA := getScore handA
      let sB := getScore handB
      if sA ≠ sB then sA - sB
      else (handA.value : ℚ) - (handB.value : ℚ)
    else
      if handA.type ≠ handB.type then 0
      else if handA.cards.length ≠ handB.cards.length then 0
      else (handA.value : ℚ) - (handB.value : ℚ)

/-- A natural (non-level, non-wild) card, as dealt outside the level rank. -/
def mkCard (suit rank : ℕ) (id : String) : Card :=
  { suit := suit, rank := rank, id := id }

example :
    getHandType [mkCard Spades 3 "a", mkCard Hearts 3 "b"] 2 =
      some { type := .Pair, cards := [mkCard Spades 3 "a", mkCard Hearts 3 "b"],
             value := 3 } := by
  decide

example :
    getHandType [mkCard Hearts 3 "h3", mkCard Hearts 4 "h4", mkCard Hearts 5 "h5",
        mkCard Hearts 6 "h6", mkCard Hearts 7 "h7"] 2 =
      some { type := .StraightFlush,
             cards := [mkCard Hearts 3 "h3", mkCard Hearts 4 "h4", mkCard Hearts 5 "h5",
        mkCard Hearts 6 "h6", mkCard Hearts 7 "h7"], value := 7, bombCount := some 5 } := by
  decide

example :
    compareHands { type := .Bomb, cards := [], value := 4, bombCount := some 4 }
      { type := .Single, cards := [], value := 14 } = 1 := by
  decide

/-! ## The Deal Engine (`class Game` of `src/server/game.ts`)

The mutable fields of `class Game` relevant to the verified handlers become a
record; seat-indexed arrays become functions from seat numbers.  The skill
mini-expansion (`gameMode === Skill`) is out of scope per spec section 1 and
is not part of this model: all modelled games are Normal-mode games, in which
the skill branches of the source are never taken. -/

/-- The phases of a deal (`enum GamePhase`). -/
inductive GamePhase where
  | Waiting
  | Dealing
  | Tribute
  | ReturnTribute
  | Playing
  | Score
deriving DecidableEq, Repr

/-- One pending tribute or return edge (`{ from, to, card? }`; `from` is a
Lean keyword, hence `fromSeat` / `toSeat`). -/
structure TributeEntry where
  fromSeat : ℕ
  toSeat : ℕ
  card : Option Card := none
deriving DecidableEq, Repr

/-- The `tributeState` record of `class Game`.  `nextStartPlayer` is the
TS number-or-undefined `maxPayer`, kept as an integer because the source
initialises the fold with `-1`. -/
structure TributeState where
  pendingTributes : List TributeEntry := []
  pendingReturns : List TributeEntry := []
  nextStartPlayer : Option ℤ := none
deriving DecidableEq, Repr

/-- A player's visible action in the current trick (`roundActions`). -/
inductive RoundAction where
  | play (cards : List Card) (hand : Hand)
  | pass
deriving DecidableEq, Repr

/-- The `lastHand` record `{ playerIndex, hand }`. -/
structure LastHand where
  playerIndex : ℕ
  hand : Hand
deriving DecidableEq, Repr

/-- The mutable per-deal state of `class Game` (Normal mode).  `hands`,
`roundActions`, `skipNextTurn` are seat-indexed (seats 0..3); `playersBot`
is `players[i].isBot`. -/
structure GameState where
  level : ℕ
  currentPhase : GamePhase
  hands : ℕ → List Card
  currentTurn : ℕ
  lastHand : Option LastHand
  passCount : ℕ
  roundActions : ℕ → Option RoundAction
  winners : List ℕ
  tributeState : TributeState
  prevWinners : List ℕ
  activeTeam : ℕ
  skipNextTurn : ℕ → Bool
  playersBot : ℕ → Bool

/-- Assignment `hands[i] = v` on the seat-indexed hand map. -/
def updHand (hs : ℕ → List Card) (i : ℕ) (v : List Card) : ℕ → List Card :=
  fun j => if j = i then v else hs j

/-- Outcome of a request handler: silently dropped (out-of-phase / not your
turn / no matching pending entry), rejected with the source's private error
message, or accepted (state mutated). -/
inductive PlayResult where
  | ignored
  | rejected (msg : String)
  | accepted
deriving DecidableEq, Repr

/-- `endGame` of `class Game`: enter the Score phase (the gameOver emit and
`onGameEnd` callback carry no deal state). -/
def endGame (st : GameState) : GameState :=
  { st with currentPhase := GamePhase.Score }

/-- `endRoundAndFindNext`: after a trick ends, the aggressor leads; if they
have emptied their hand their partner does (jiefeng), and the lead then skips
on clockwise to the first seat still holding cards; if nobody holds cards the
deal ends. -/
def endRoundAndFindNext (st : GameState) (winner : ℕ) : GameState :=
  let w := if (st.hands winner).length = 0 then (winner + 2) % 4 else winner
  let st1 := { st with lastHand := none, passCount := 0,
                       roundActions := fun _ => none }
  match [w, (w + 1) % 4, (w + 2) % 4, (w + 3) % 4].find?
      (fun s => 0 < (st1.hands s).length) with
  | some seat => { st1 with currentTurn := seat }
  | none => endGame st1

/-- The body of `advanceTurn`'s bounded look-ahead loop (at most 4 probes):
cycling back to the last aggressor ends the trick; finished seats are
skipped; a seat under the skip effect is marked as passing and cleared. -/
def advanceTurnLoop (st : GameState) (next : ℕ) : ℕ → GameState
  | 0 => endGame st
  | fuel + 1 =>
    if st.lastHand.any (fun lh => lh.playerIndex == next) then
      endRoundAndFindNext st next
    else if (st.hands next).length = 0 then
      advanceTurnLoop st ((next + 1) % 4) fuel
    else if st.skipNextTurn next then
      advanceTurnLoop
        { st with skipNextTurn := fun i => if i = next then false else st.skipNextTurn i,
                  roundActions := fun i => if i = next then some RoundAction.pass
                                           else st.roundActions i }
        ((next + 1) % 4) fuel
    else
      { st with currentTurn := next }

/-- `advanceTurn` of `class Game`. -/
def advanceTurn (st : GameState) : GameState :=
  advanceTurnLoop st ((st.currentTurn + 1) % 4) 4

/-- The committed part of `handlePlayHand` after all validation passed:
remove the played cards by identity tag, record the play as the new last
hand and the only action of a fresh trick, then handle finishing seats
(double-win and third-finisher termination) and advance the turn. -/
def applyPlay (st : GameState) (seatIndex : ℕ) (cards : List Card) (hand : Hand) :
    GameState :=
  let newHand := (st.hands seatIndex).filter
    (fun c => !(cards.any (fun played => played.id == c.id)))
  let st1 := { st with hands := updHand st.hands seatIndex newHand,
                       lastHand := some { playerIndex := seatIndex, hand := hand },
                       passCount := 0,
                       roundActions := fun i => if i = seatIndex
                                                then some (RoundAction.play cards hand)
                                                else none }
  if (st1.hands seatIndex).length = 0 then
    let st2 := { st1 with winners := st1.winners ++ [seatIndex] }
    if st2.winners.length = 2 then
      if (st2.winners.getD 0 0) % 2 = (st2.winners.getD 1 0) % 2 then
        endGame { st2 with
          winners := st2.winners ++ [0, 1, 2, 3].filter (fun i => !(st2.winners.contains i)) }
      else advanceTurn st2
    else if st2.winners.length = 3 then
      match [0, 1, 2, 3].find? (fun i => !(st2.winners.contains i)) with
      | some last => endGame { st2 with winners := st2.winners ++ [last] }
      | none => endGame st2
    else advanceTurn st2
  else advanceTurn st1

instance : Inhabited LastHand :=
  ⟨{ playerIndex := 0, hand := { type := HandType.Single, cards := [], value := 0 } }⟩

/-- `handlePlayHand` of `class Game`.  When the client supplies a `handType`,
the engine only checks that the cards classify to SOME legal hand and then
uses the client's interpretation for the comparison and the stored last hand;
without one it uses its own classification.  Validation order: phase, turn,
classification, beat-the-last-hand, card ownership. -/
def handlePlayHand (st : GameState) (seatIndex : ℕ) (cards : List Card)
    (providedHandType : Option Hand) : GameState × PlayResult :=
  if st.currentPhase ≠ GamePhase.Playing then (st, PlayResult.ignored)
  else if st.currentTurn ≠ seatIndex then (st, PlayResult.ignored)
  else
    let inferredHand := getHandType cards st.level
    match providedHandType, inferredHand with
    | some _, none => (st, PlayResult.rejected "Invalid hand")
    | none, none => (st, PlayResult.rejected "Invalid hand")
    | ph, some ih =>
      let hand := ph.getD ih
      if st.lastHand.any (fun lh => !(lh.playerIndex == seatIndex)) ∧
          compareHands hand ((st.lastHand.getD default).hand) ≤ 0 then
        (st, PlayResult.rejected "Hand not big enough")
      else if !(cards.all (fun c => (st.hands seatIndex).any (fun phc => phc.id == c.id))) then
        (st, PlayResult.rejected "You do not have these cards")
      else
        (applyPlay st seatIndex cards hand, PlayResult.accepted)

/-- `handlePass` of `class Game`: passing is rejected on a free lead, else
the pass is recorded for the trick and the turn advances. -/
def handlePass (st : GameState) (seatIndex : ℕ) : GameState × PlayResult :=
  if st.currentPhase ≠ GamePhase.Playing then (st, PlayResult.ignored)
  else if st.currentTurn ≠ seatIndex then (st, PlayResult.ignored)
  else if st.lastHand.all (fun lh => lh.playerIndex == seatIndex) then
    (st, PlayResult.rejected "Cannot pass on free turn")
  else
    (advanceTurn
      { st with roundActions := fun i => if i = seatIndex then some RoundAction.pass
                                         else st.roundActions i },
     PlayResult.accepted)

/-- In-place mutation of the first list entry satisfying `p` (the TS handlers
mutate the object returned by `Array.prototype.find`). -/
def updateFirst (p : α → Bool) (f : α → α) : List α → List α
  | [] => []
  | x :: xs => if p x then f x :: xs else x :: updateFirst p f xs

/-- The fold of `handleTribute` computing who leads after return-tribute:
largest tribute-card logic value wins, strictly-greater updates only, so on a
tie the earlier entry — the last-place payer `p4`, pushed first — keeps it.
TS starts from `maxVal = -1`, `maxPayer = -1`. -/
def computeMaxPayer (entries : List TributeEntry) (level : ℕ) : ℤ :=
  (entries.foldl
    (fun (acc : ℤ × ℤ) t =>
      match t.card with
      | some c =>
        if (getLogicValue c.rank level : ℤ) > acc.1
        then ((getLogicValue c.rank level : ℤ), (t.fromSeat : ℤ))
        else acc
      | none => acc)
    (-1, -1)).2

/-- `checkReturnDone` of `class Game`: once every pending return carries its
card, enter Playing with the stored next-start seat, falling back to the
previous deal's first finisher when none was stored. -/
def checkReturnDone (st : GameState) : GameState :=
  if st.tributeState.pendingReturns.all (fun r => r.card.isSome) then
    let turn := match st.tributeState.nextStartPlayer with
                | some n => n.toNat
                | none => st.prevWinners.headD 0
    { st with currentPhase := GamePhase.Playing, currentTurn := turn,
              tributeState := {} }
  else st

/-- `handleTribute` of `class Game`: a one-card payment against the payer's
first open tribute debt.  The engine verifies only that the SUBMITTED card's
logic value is at least the logic value of the largest card in the payer's
hand; it never checks that the card is actually in that hand.  The card is
then removed from the payer by identity tag and pushed into the recipient's
re-sorted hand; when the last debt closes, the next-start seat is computed
and the phase moves to ReturnTribute. -/
def handleTribute (st : GameState) (seatIndex : ℕ) (cards : List Card) :
    GameState × PlayResult :=
  if st.currentPhase ≠ GamePhase.Tribute then (st, PlayResult.ignored)
  else if cards.length ≠ 1 then (st, PlayResult.ignored)
  else
    match st.tributeState.pendingTributes.find?
        (fun t => t.fromSeat == seatIndex && t.card.isNone) with
    | none => (st, PlayResult.ignored)
    | some tribute =>
      let hand := st.hands seatIndex
      let largest := getLargestCard hand st.level
      let c0 := cards.headD default
      let valPlay := getLogicValue c0.rank st.level
      let valMax := getLogicValue largest.rank st.level
      if valPlay < valMax then (st, PlayResult.rejected "Must pay the largest card")
      else
        let pts := updateFirst (fun t => t.fromSeat == seatIndex && t.card.isNone)
          (fun t => { t with card := some c0 }) st.tributeState.pendingTributes
        let hs1 := updHand st.hands seatIndex
          ((st.hands seatIndex).filter (fun c => !(c.id == c0.id)))
        let hs2 := updHand hs1 tribute.toSeat
          (sortCards (hs1 tribute.toSeat ++ [c0]) st.level)
        let st1 := { st with hands := hs2,
                             tributeState := { st.tributeState with pendingTributes := pts } }
        if pts.all (fun t => t.card.isSome) then
          ({ st1 with
              currentPhase := GamePhase.ReturnTribute,
              tributeState :=
                { st1.tributeState with
                    nextStartPlayer := some (computeMaxPayer pts st.level),
                    pendingReturns := pts.map (fun t =>
                      { fromSeat := t.toSeat, toSeat := t.fromSeat }),
                    pendingTributes := [] } },
           PlayResult.accepted)
        else (st1, PlayResult.accepted)

/-- `handleReturnTribute` of `class Game`: the recipient returns exactly one
card (any card — again without an ownership check) against their first open
return debt, and `checkReturnDone` may then start the Playing phase. -/
def handleReturnTribute (st : GameState) (seatIndex : ℕ) (cards : List Card) :
    GameState × PlayResult :=
  if st.currentPhase ≠ GamePhase.ReturnTribute then (st, PlayResult.ignored)
  else if cards.length ≠ 1 then (st, PlayResult.ignored)
  else
    match st.tributeState.pendingReturns.find?
        (fun r => r.fromSeat == seatIndex && r.card.isNone) with
    | none => (st, PlayResult.ignored)
    | some ret =>
      let c0 := cards.headD default
      let rets := updateFirst (fun r => r.fromSeat == seatIndex && r.card.isNone)
        (fun r => { r with card := some c0 }) st.tributeState.pendingReturns
      let hs1 := updHand st.hands seatIndex
        ((st.hands seatIndex).filter (fun c => !(c.id == c0.id)))
      let hs2 := updHand hs1 ret.toSeat
        (sortCards (hs1 ret.toSeat ++ [c0]) st.level)
      (checkReturnDone
        { st with hands := hs2,
                  tributeState := { st.tributeState with pendingReturns := rets } },
       PlayResult.accepted)

/-- The first `forEach` of `processAutoTribute`: every bot payer immediately
pays its largest card (the entry records the card; the hands move). -/
def autoPayTributes (isBot : ℕ → Bool) (level : ℕ) :
    List TributeEntry → (ℕ → List Card) → List TributeEntry × (ℕ → List Card)
  | [], hs => ([], hs)
  | t :: rest, hs =>
    if isBot t.fromSeat then
      let largest := getLargestCard (hs t.fromSeat) level
      let hs1 := updHand hs t.fromSeat
        ((hs t.fromSeat).filter (fun c => !(c.id == largest.id)))
      let hs2 := updHand hs1 t.toSeat (sortCards (hs1 t.toSeat ++ [largest]) level)
      let (rest1, hs3) := autoPayTributes isBot level rest hs2
      ({ t with card := some largest } :: rest1, hs3)
    else
      let (rest1, hs3) := autoPayTributes isBot level rest hs
      (t :: rest1, hs3)

/-- The second `forEach` of `processAutoTribute`: every bot recipient
immediately returns its smallest card (`hand[hand.length - 1]` of the
descending-sorted hand). -/
def autoReturns (isBot : ℕ → Bool) (level : ℕ) :
    List TributeEntry → (ℕ → List Card) → List TributeEntry × (ℕ → List Card)
  | [], hs => ([], hs)
  | r :: rest, hs =>
    if isBot r.fromSeat then
      let smallest := (hs r.fromSeat).getLastD default
      let hs1 := updHand hs r.fromSeat
        ((hs r.fromSeat).filter (fun c => !(c.id == smallest.id)))
      let hs2 := updHand hs1 r.toSeat (sortCards (hs1 r.toSeat ++ [smallest]) level)
      let (rest1, hs3) := autoReturns isBot level rest hs2
      ({ r with card := some smallest } :: rest1, hs3)
    else
      let (rest1, hs3) := autoReturns isBot level rest hs
      (r :: rest1, hs3)

/-- `processAutoTribute` of `class Game`: bot payers pay at phase entry; when
that already settles every debt the phase moves to ReturnTribute, bot
recipients auto-return, and `checkReturnDone` runs.  Note the all-bot path
never stores `nextStartPlayer` — only `handleTribute` computes it. -/
def processAutoTribute (st : GameState) : GameState :=
  let (pts, hs) := autoPayTributes st.playersBot st.level
    st.tributeState.pendingTributes st.hands
  let st1 := { st with hands := hs,
                       tributeState := { st.tributeState with pendingTributes := pts } }
  if pts.all (fun t => t.card.isSome) then
    let rets : List TributeEntry := pts.map (fun t =>
      { fromSeat := t.toSeat, toSeat := t.fromSeat })
    let st2 := { st1 with
                   currentPhase := GamePhase.ReturnTribute,
                   tributeState := { st1.tributeState with
                                       pendingReturns := rets, pendingTributes := [] } }
    let (rets1, hs2) := autoReturns st.playersBot st.level rets st2.hands
    checkReturnDone
      { st2 with hands := hs2,
                 tributeState := { st2.tributeState with pendingReturns := rets1 } }
  else st1

/-- Big-Joker count over the given seats' hands (`Rank.BigJoker = 16`). -/
def countBigJokers (hs : ℕ → List Card) (seats : List ℕ) : ℕ :=
  (seats.map (fun s => ((hs s).filter (fun c => c.rank == RankBigJoker)).length)).sum

/-- `initTributePhase` of `class Game`: from the previous finishing order
derive the tribute edges (double win: p4→p1 and p3→p2; single win: p4→p1;
a 1-4 tie skips tribute), cancel everything when the losing payers hold both
BigJokers (resistance — checked before any card is collected), otherwise
enter the Tribute phase and resolve bot payers at once. -/
def initTributePhase (st : GameState) : GameState :=
  if st.prevWinners.length < 4 then
    { st with currentPhase := GamePhase.Playing, currentTurn := st.activeTeam }
  else
    let p1 := st.prevWinners.getD 0 0
    let p2 := st.prevWinners.getD 1 0
    let p3 := st.prevWinners.getD 2 0
    let p4 := st.prevWinners.getD 3 0
    let st0 := { st with tributeState := {} }
    if ¬(p1 % 2 = p2 % 2) ∧ p1 % 2 = p4 % 2 then
      { st0 with currentPhase := GamePhase.Playing, currentTurn := p1 }
    else
      let isDouble := p1 % 2 = p2 % 2
      let losingTeam := if p1 % 2 = p2 % 2 then [p3, p4] else [p4]
      if countBigJokers st0.hands losingTeam = 2 then
        { st0 with currentPhase := GamePhase.Playing, currentTurn := p1 }
      else
        let pts : List TributeEntry :=
          if isDouble then [{ fromSeat := p4, toSeat := p1 }, { fromSeat := p3, toSeat := p2 }]
          else [{ fromSeat := p4, toSeat := p1 }]
        if 0 < pts.length then
          processAutoTribute
            { st0 with currentPhase := GamePhase.Tribute,
                       tributeState := { pendingTributes := pts } }
        else
          { st0 with currentPhase := GamePhase.Playing, currentTurn := p1 }

/-- `handleBotTurn` of `class Game` (Normal mode), parameterised by the move
the external bot strategy returned (`Bot.decideMove`, an out-of-scope
collaborator per spec section 4.6: `null` means pass).  A returned play goes
through `handlePlayHand` with no provided hand type, a `null` through
`handlePass`; the handler's resulting state is taken as-is — there is no
fallback when validation rejects the bot's play. -/
def handleBotTurn (st : GameState) (seatIndex : ℕ) (move : Option (List Card)) :
    GameState :=
  if st.currentPhase ≠ GamePhase.Playing then st
  else if st.currentTurn ≠ seatIndex then st
  else if (st.hands seatIndex).length = 0 then advanceTurn st
  else
    match move with
    | some cards => (handlePlayHand st seatIndex cards none).1
    | none => (handlePass st seatIndex).1

/-! ## The Match Controller (`class Match` of `src/server/match.ts`) -/

/-- The mutable match-level state of `class Match`: team-levels and
consecutive-wins are team-indexed maps `{0: _, 1: _}`. -/
structure MatchState where
  teamLevels : ℕ → ℕ
  activeTeam : ℕ
  consecutiveWins : ℕ → ℕ
  matchWinner : Option ℕ
  lastWinners : List ℕ

/-- The state `startMatch` installs before the first deal. -/
def startMatchState : MatchState :=
  { teamLevels := fun _ => 2, activeTeam := 0,
    consecutiveWins := fun _ => 0, matchWinner := none, lastWinners := [] }

/-- `calculateLevelUp` of `class Match`: winning team is `p1`'s team; the
step is +3 for a double win, +2 when first and third are partners, else +1. -/
def calculateLevelUp (winners : List ℕ) : ℕ × ℕ :=
  let p1 := winners.getD 0 0
  let p2 := winners.getD 1 0
  let p3 := winners.getD 2 0
  let winningTeam := p1 % 2
  if p1 % 2 = p2 % 2 then (winningTeam, 3)
  else if p1 % 2 = p3 % 2 then (winningTeam, 2)
  else (winningTeam, 1)

/-- `handleGameEnd` of `class Match` as a pure transition.  The result also
records whether a `matchOver` was emitted and whether the 3-second grace
timer for `startNextGame` was scheduled.  A winning team's counter is bumped
whenever its POST-level-up level equals 14 (the other team's counter drops to
0); when the post-level-up level is below 14 both counters reset; at two
bumped consecutive wins the match winner is declared and no next deal is
scheduled. -/
def handleGameEnd (s : MatchState) (winners : List ℕ) :
    MatchState × Bool × Bool :=
  if winners.length ≠ 4 then (s, false, false)
  else
    let lu := calculateLevelUp winners
    let winningTeam := lu.1
    let levelIncrease := lu.2
    let raised := fun t => if t = winningTeam then s.teamLevels t + levelIncrease
                           else s.teamLevels t
    let capped := fun t => if t = winningTeam ∧ 14 < raised t then 14 else raised t
    let s1 := { s with teamLevels := capped,
                       activeTeam := if winningTeam ≠ s.activeTeam then winningTeam
                                     else s.activeTeam }
    if capped winningTeam = 14 then
      let cw := fun t => if t = winningTeam then s.consecutiveWins t + 1
                         else if t = 1 - winningTeam then 0
                         else s.consecutiveWins t
      let s2 := { s1 with consecutiveWins := cw }
      if 2 ≤ cw winningTeam then
        ({ s2 with matchWinner := some winningTeam }, true, false)
      else
        ({ s2 with lastWinners := winners }, false, true)
    else
      ({ s1 with consecutiveWins := fun t => if t = 0 ∨ t = 1 then 0
                                             else s.consecutiveWins t,
                 lastWinners := winners }, false, true)

/-- The method names `class Game` (`src/server/game.ts`) actually defines. -/
def gameMethods : List String :=
  ["constructor", "rebindPlayer", "bindPlayerListeners", "resetAndStart", "start",
   "handleLevelUp", "initTributePhase", "processAutoTribute", "handleTribute",
   "handleReturnTribute", "checkReturnDone", "handlePlayHand", "endRoundAndFindNext",
   "handlePass", "advanceTurn", "dealSkillCards", "generateRandomCard",
   "handleUseSkill", "applySkillEffect", "endGame", "emitError", "broadcastGameState",
   "botSendChat", "handleBotTurn", "decideBotSkillUse"]

/-- The Game member methods `Match.startNextGame` invokes (besides the
constructor and plain field assignments): `this.currentGame.destroy()` on the
old engine whenever one exists, then `start()` on the fresh engine. -/
def startNextGameGameCalls (hasCurrentGame : Bool) : List String :=
  if hasCurrentGame then ["destroy", "start"] else ["start"]

/-! ## Claims -/

/-- C3: after any deal that ends without terminating the match (here: the
very first deal of a fresh match, finishing order [0,2,1,3]), the controller
schedules `startNextGame`; that chaining step then invokes `destroy()` on the
still-live Deal Engine — but `class Game` defines no `destroy` method, so the
call cannot succeed and the claim that `startNextGame` invokes only
operations the Deal Engine provides fails. -/
theorem claim3_destroy_missing :
    (handleGameEnd startMatchState [0, 2, 1, 3]).2.2 = true ∧
    "destroy" ∈ startNextGameGameCalls true ∧
    "destroy" ∉ gameMethods := by
  refine ⟨by decide, by decide, by decide⟩

/-- The FourKings-versus-FourKings pair on which C4 fails: `compareHands`
returns 1 in both orientations. -/
def fourKingsHand : Hand :=
  { type := HandType.FourKings,
    cards := [mkCard JokerSuit RankSmallJoker "joker-small-0",
              mkCard JokerSuit RankSmallJoker "joker-small-1",
              mkCard JokerSuit RankBigJoker "joker-big-0",
              mkCard JokerSuit RankBigJoker "joker-big-1"],
    value := 999 }

/-- C4 counterexample: with A = B = FourKings, `compareHands A B > 0` holds
while `compareHands B A < 0` fails (both directions return 1), so the claimed
antisymmetry is false "including the case where A and B are both FourKings". -/
theorem claim4_counterexample :
    0 < compareHands fourKingsHand fourKingsHand ∧
    ¬ compareHands fourKingsHand fourKingsHand < 0 := by
  decide

/-- C4 amended: for every pair of hand classifications A and B at most one of
which is FourKings, `compareHands A B > 0` implies `compareHands B A < 0`. -/
theorem claim4_amended (A B : Hand)
    (h4 : ¬(A.type = HandType.FourKings ∧ B.type = HandType.FourKings))
    (hAB : 0 < compareHands A B) : compareHands B A < 0 := by
  obtain ⟨ta, ca, va, ba⟩ := A
  obtain ⟨tb, cb, vb, bb⟩ := B
  cases ta <;> cases tb <;>
    (try simp_all [compareHands, getScore]) <;>
    (try split_ifs at hAB ⊢) <;>
    first
      | linarith
      | simp_all

/-- C4 amended witness at a concrete pair: a 6-card bomb against a 4-card
bomb. -/
theorem claim4_amended_witness :
    compareHands { type := HandType.Bomb, cards := [], value := 3, bombCount := some 4 }
      { type := HandType.Bomb, cards := [], value := 8, bombCount := some 6 } < 0 :=
  claim4_amended
    { type := HandType.Bomb, cards := [], value := 8, bombCount := some 6 }
    { type := HandType.Bomb, cards := [], value := 3, bombCount := some 4 }
    (by decide) (by simp [compareHands, getScore]; norm_num)

/-- C6: the bomb-ladder order of `compareHands` — a 5-card bomb loses to any
StraightFlush, a bomb of six or more cards beats any StraightFlush, FourKings
beats every other hand, and two ladder hands of equal score are ordered by
their value. -/
theorem claim6_bomb_ladder :
    (∀ A B : Hand, A.type = HandType.Bomb → A.bombCount = some 5 →
      B.type = HandType.StraightFlush → compareHands A B < 0) ∧
    (∀ A B : Hand, ∀ n : ℕ, A.type = HandType.Bomb → A.bombCount = some n → 6 ≤ n →
      B.type = HandType.StraightFlush → 0 < compareHands A B) ∧
    (∀ A B : Hand, A.type = HandType.FourKings → B.type ≠ HandType.FourKings →
      0 < compareHands A B) ∧
    (∀ A B : Hand,
      (A.type = HandType.Bomb ∨ A.type = HandType.StraightFlush) →
      (B.type = HandType.Bomb ∨ B.type = HandType.StraightFlush) →
      getScore A = getScore B →
      compareHands A B = (A.value : ℚ) - (B.value : ℚ)) := by
  refine ⟨?_, ?_, ?_, ?_⟩
  · intro A B hA hbc hB
    simp [compareHands, getScore, hA, hbc, hB]
    norm_num
  · intro A B n hA hbc hn hB
    have h6 : (11 : ℚ) / 2 < (n : ℚ) := by
      have h6n : (6 : ℚ) ≤ (n : ℚ) := by exact_mod_cast hn
      linarith
    have hne : ((n : ℚ)) ≠ 11 / 2 := by
      intro h
      rw [h] at h6
      linarith
    simp [compareHands, getScore, hA, hbc, hB, hne]
    linarith
  · intro A B hA _hB
    simp [compareHands, hA]
  · intro A B hA hB hs
    have hA4 : A.type ≠ HandType.FourKings := by
      rcases hA with h | h <;> simp [h]
    have hB4 : B.type ≠ HandType.FourKings := by
      rcases hB with h | h <;> simp [h]
    simp [compareHands, hA4, hB4, hA, hB, hs]

/-- C6 witness at concrete ladder hands: a 4s 5-bomb against the 3-7 straight
flush, a 6-card bomb against the same, FourKings against a single, and two
equal-score straight flushes compared by value. -/
theorem claim6_bomb_ladder_witness :
    compareHands { type := HandType.Bomb, cards := [], value := 4, bombCount := some 5 }
        { type := HandType.StraightFlush, cards := [], value := 7, bombCount := some 5 } < 0 ∧
    0 < compareHands { type := HandType.Bomb, cards := [], value := 5, bombCount := some 6 }
        { type := HandType.StraightFlush, cards := [], value := 7, bombCount := some 5 } ∧
    0 < compareHands fourKingsHand { type := HandType.Single, cards := [], value := 9 } ∧
    compareHands { type := HandType.StraightFlush, cards := [], value := 7, bombCount := some 5 }
        { type := HandType.StraightFlush, cards := [], value := 6, bombCount := some 5 } =
      ((7 : ℕ) : ℚ) - ((6 : ℕ) : ℚ) :=
  ⟨claim6_bomb_ladder.1 _ _ rfl rfl rfl,
   claim6_bomb_ladder.2.1 _ _ 6 rfl rfl (by norm_num) rfl,
   claim6_bomb_ladder.2.2.1 _ _ rfl (by decide),
   claim6_bomb_ladder.2.2.2 _ _ (Or.inr rfl) (Or.inr rfl) rfl⟩

lemma calculateLevelUp_fst (winners : List ℕ) :
    (calculateLevelUp winners).1 = winners.getD 0 0 % 2 := by
  simp only [calculateLevelUp]
  split_ifs <;> rfl

/-- A match state with the leading team at level 12: a double win from here
caps the level at 14 and already bumps the consecutive-win counter. -/
def levelTwelveMatch : MatchState :=
  { teamLevels := fun t => if t = 0 then 12 else 2, activeTeam := 0,
    consecutiveWins := fun _ => 0, matchWinner := none, lastWinners := [] }

/-- C5 counterexample: Team 0 is at level 12 — below 14 — when it wins the
deal [0,2,1,3]; the claim says both consecutive-win counters must remain
zero, but the controller caps 12+3 to 14 and immediately increments Team 0's
counter to 1. -/
theorem claim5_counterexample :
    levelTwelveMatch.teamLevels 0 = 12 ∧
    (handleGameEnd levelTwelveMatch [0, 2, 1, 3]).1.consecutiveWins 0 = 1 := by
  decide

set_option maxHeartbeats 1600000 in
/-- C5 amended: the consecutive-win counter is keyed on the winning team's
POST-level-up level, not on the level it held before the deal: a deal win
after which the winning team's (capped) level is 14 increments its counter —
including the very deal that first reaches 14 — and zeroes the other team's;
a deal win leaving the winner below 14 zeroes both; the match winner is
declared exactly when a win makes the incremented counter reach 2, and only
then is the 3-second next-deal timer suppressed. -/
theorem claim5_amended (s : MatchState) (winners : List ℕ) (r : MatchState)
    (matchOverEmitted nextScheduled : Bool)
    (hlen : winners.length = 4)
    (hr : handleGameEnd s winners = (r, matchOverEmitted, nextScheduled)) :
    (r.consecutiveWins (winners.getD 0 0 % 2) =
      if r.teamLevels (winners.getD 0 0 % 2) = 14
      then s.consecutiveWins (winners.getD 0 0 % 2) + 1 else 0) ∧
    r.consecutiveWins (1 - winners.getD 0 0 % 2) = 0 ∧
    (r.matchWinner =
      if r.teamLevels (winners.getD 0 0 % 2) = 14 ∧
          2 ≤ s.consecutiveWins (winners.getD 0 0 % 2) + 1
      then some (winners.getD 0 0 % 2) else s.matchWinner) ∧
    (matchOverEmitted = true ↔
      r.teamLevels (winners.getD 0 0 % 2) = 14 ∧
        2 ≤ s.consecutiveWins (winners.getD 0 0 % 2) + 1) ∧
    (nextScheduled = true ↔
      ¬(r.teamLevels (winners.getD 0 0 % 2) = 14 ∧
        2 ≤ s.consecutiveWins (winners.getD 0 0 % 2) + 1)) := by
  have hne : 1 - winners.getD 0 0 % 2 ≠ winners.getD 0 0 % 2 := by omega
  unfold handleGameEnd at hr
  rw [if_neg (by simp [hlen])] at hr
  dsimp only at hr
  rw [calculateLevelUp_fst] at hr
  repeat' split at hr
  all_goals
    injection hr with hst hrest
  all_goals
    injection hrest with hover hsched
  all_goals
    subst hst hover hsched
  all_goals
    try simp_all [hne]
  all_goals
    try constructor
  all_goals
    intros
  all_goals
    omega

/-- A match state with Team 0 at 14 holding one consecutive win. -/
def matchAt14 : MatchState :=
  { teamLevels := fun t => if t = 0 then 14 else 2, activeTeam := 0,
    consecutiveWins := fun t => if t = 0 then 1 else 0, matchWinner := none,
    lastWinners := [0, 2, 1, 3] }

/-- C5 amended witness: Team 0, at 14 with one banked consecutive win, wins
again and the controller declares it match winner. -/
theorem claim5_amended_witness :
    (handleGameEnd matchAt14 [0, 2, 1, 3]).1.matchWinner = some 0 := by
  have h := (claim5_amended matchAt14 [0, 2, 1, 3]
    (handleGameEnd matchAt14 [0, 2, 1, 3]).1
    (handleGameEnd matchAt14 [0, 2, 1, 3]).2.1
    (handleGameEnd matchAt14 [0, 2, 1, 3]).2.2 rfl rfl).2.2.1
  rw [h]
  decide

/-- Concrete spade cards for the tribute scenarios. -/
def cardSpadeA : Card := mkCard Spades 14 "sA"

/-- A spade five. -/
def cardSpade5 : Card := mkCard Spades 5 "s5"

/-- A spade four. -/
def cardSpade4 : Card := mkCard Spades 4 "s4"

/-- A spade three. -/
def cardSpade3 : Card := mkCard Spades 3 "s3"

/-- A deal between four bots entering tribute: previous order [0,1,2,3]
(single win: only p4 = seat 3 pays p1 = seat 0), no resistance. -/
def allBotTributeState : GameState :=
  { level := 2, currentPhase := GamePhase.Dealing,
    hands := fun i =>
      if i = 0 then [cardSpadeA, cardSpade4]
      else if i = 3 then [cardSpade5, cardSpade3]
      else if i = 1 then [mkCard Spades 13 "k1"]
      else [mkCard Spades 12 "q2"],
    currentTurn := 0, lastHand := none, passCount := 0,
    roundActions := fun _ => none, winners := [],
    tributeState := {}, prevWinners := [0, 1, 2, 3], activeTeam := 0,
    skipNextTurn := fun _ => false, playersBot := fun _ => true }

/-- C7: when every payer is a bot, the whole tribute resolves inside
`processAutoTribute`, which never stores `nextStartPlayer`; `checkReturnDone`
then falls back to `prevWinners[0]`.  Here seat 3 pays the (unique, hence
largest) tribute card ♠5, so the claim requires `currentTurn = 3`, but the
engine enters Playing with `currentTurn = 0` — contradicting both the claim
and the source's own comment that the fallback "shouldn't happen if tribute
occurred".  The hand equalities show the tribute and return did move cards
(seat 0 received ♠5 and returned ♠4). -/
theorem claim7_auto_tribute_start_seat :
    (initTributePhase allBotTributeState).currentPhase = GamePhase.Playing ∧
    (initTributePhase allBotTributeState).currentTurn = 0 ∧
    (initTributePhase allBotTributeState).hands 0 = [cardSpadeA, cardSpade5] ∧
    (initTributePhase allBotTributeState).hands 3 = [cardSpade4, cardSpade3] := by
  decide

/-- C9: whenever the previous finishing order triggers tribute (a double win,
or a single win that is not a 1-4 tie) and the losing payers together hold
exactly the two BigJokers, `initTributePhase` cancels tribute before touching
any card: the phase jumps straight to Playing, `currentTurn` is the previous
first finisher, the hands are untouched and no tribute edge is created. -/
theorem claim9_resistance (st : GameState) (p1 p2 p3 p4 : ℕ)
    (hpw : st.prevWinners = [p1, p2, p3, p4])
    (htrib : p1 % 2 = p2 % 2 ∨ ¬(p1 % 2 = p4 % 2))
    (hbj : countBigJokers st.hands (if p1 % 2 = p2 % 2 then [p3, p4] else [p4]) = 2) :
    (initTributePhase st).currentPhase = GamePhase.Playing ∧
    (initTributePhase st).currentTurn = p1 ∧
    (initTributePhase st).hands = st.hands ∧
    (initTributePhase st).tributeState.pendingTributes = [] ∧
    (initTributePhase st).tributeState.pendingReturns = [] := by
  by_cases hd : p1 % 2 = p2 % 2
  · rw [if_pos hd] at hbj
    simp [initTributePhase, hpw, hd, hbj]
  · have hnt : ¬(p1 % 2 = p4 % 2) := htrib.resolve_left hd
    rw [if_neg hd] at hbj
    simp [initTributePhase, hpw, hd, hnt, hbj]

/-- A deal whose losing payers (seats 1 and 3, after the double win
[0,2,1,3]) hold the two BigJokers. -/
def resistanceState : GameState :=
  { level := 2, currentPhase := GamePhase.Dealing,
    hands := fun i =>
      if i = 1 then [mkCard JokerSuit RankBigJoker "joker-big-0", cardSpade3]
      else if i = 3 then [mkCard JokerSuit RankBigJoker "joker-big-1"]
      else if i = 0 then [cardSpadeA]
      else [cardSpade4],
    currentTurn := 0, lastHand := none, passCount := 0,
    roundActions := fun _ => none, winners := [],
    tributeState := {}, prevWinners := [0, 2, 1, 3], activeTeam := 0,
    skipNextTurn := fun _ => false, playersBot := fun _ => false }

/-- C9 witness: the concrete resistance deal enters Playing led by seat 0
with no tribute edges. -/
theorem claim9_resistance_witness :
    (initTributePhase resistanceState).currentPhase = GamePhase.Playing ∧
    (initTributePhase resistanceState).currentTurn = 0 ∧
    (initTributePhase resistanceState).hands = resistanceState.hands ∧
    (initTributePhase resistanceState).tributeState.pendingTributes = [] := by
  have h := claim9_resistance resistanceState 0 2 1 3 rfl (Or.inl rfl) (by decide)
  exact ⟨h.1, h.2.1, h.2.2.1, h.2.2.2.1⟩

lemma ght1_type (cards : List Card) (len : ℕ) (h : Hand)
    (hq : ght1FourKings cards len = some (some h)) : h.type = HandType.FourKings := by
  simp only [ght1FourKings] at hq
  split_ifs at hq <;> (try simp only [Option.some.injEq] at hq) <;> (try subst hq) <;> simp_all

lemma ght2_type (cards : List Card) (len level : ℕ) (h : Hand)
    (hq : ght2Single cards len level = some (some h)) : h.type = HandType.Single := by
  simp only [ght2Single] at hq
  split_ifs at hq <;> (try simp only [Option.some.injEq] at hq) <;> (try subst hq) <;> simp_all

lemma ght3_type (cards : List Card) (len wildCount : ℕ) (nonWilds : List Card)
    (uniqueValues : List ℕ) (h : Hand)
    (hq : ght3Pair cards len wildCount nonWilds uniqueValues = some (some h)) :
    h.type = HandType.Pair := by
  simp only [ght3Pair] at hq
  split_ifs at hq <;> (try simp only [Option.some.injEq] at hq) <;> (try subst hq) <;> simp_all

lemma ght4_type (cards : List Card) (len wildCount : ℕ) (uniqueValues : List ℕ)
    (counts : ℕ → ℕ) (h : Hand)
    (hq : ght4Trips cards len wildCount uniqueValues counts = some (some h)) :
    h.type = HandType.Trips := by
  simp only [ght4Trips] at hq
  split_ifs at hq <;> (try simp only [Option.some.injEq] at hq) <;> (try subst hq) <;> simp_all

lemma twpLoop_type (cards : List Card) (wildCount : ℕ) (counts : ℕ → ℕ)
    (uniqueValues : List ℕ) :
    ∀ l (h : Hand), twpLoop cards wildCount counts uniqueValues l = some h →
      h.type = HandType.TripsWithPair := by
  intro l
  induction l with
  | nil =>
    intro h hq
    simp [twpLoop] at hq
  | cons t rest ih =>
    intro h hq
    simp only [twpLoop] at hq
    split_ifs at hq <;>
      (try simp only [Option.some.injEq] at hq) <;>
      first
        | exact ih _ hq
        | (subst hq; rfl)

lemma ght5_type (cards : List Card) (len wildCount : ℕ) (uniqueValues : List ℕ)
    (counts : ℕ → ℕ) (maxCount : ℕ) (h : Hand)
    (hq : ght5FullHouse cards len wildCount uniqueValues counts maxCount = some (some h)) :
    h.type = HandType.Bomb ∨ h.type = HandType.TripsWithPair := by
  simp only [ght5FullHouse] at hq
  split_ifs at hq
  · left
    simp only [Option.some.injEq] at hq
    subst hq
    rfl
  · split at hq
    · right
      rename_i h' heq
      refine twpLoop_type cards wildCount counts uniqueValues uniqueValues h ?_
      simp_all
    · simp_all

lemma ght7_type (cards : List Card) (len wildCount : ℕ) (uniqueValues : List ℕ)
    (maxCount : ℕ) (h : Hand)
    (hq : ght7Bomb cards len wildCount uniqueValues maxCount = some (some h)) :
    h.type = HandType.Bomb := by
  simp only [ght7Bomb] at hq
  split_ifs at hq <;> (try simp only [Option.some.injEq] at hq) <;> (try subst hq) <;> simp_all

lemma ght8Plate_type (cards s : List Card) (h : Hand)
    (hq : ght8Plate cards s = some (some h)) : h.type = HandType.Plate := by
  simp only [ght8Plate] at hq
  split_ifs at hq <;> (try simp only [Option.some.injEq] at hq) <;> (try subst hq) <;> simp_all

lemma ght8_type (cards : List Card) (len wildCount : ℕ) (h : Hand)
    (hq : ght8TubePlate cards len wildCount = some (some h)) :
    h.type = HandType.Tube ∨ h.type = HandType.Plate := by
  simp only [ght8TubePlate] at hq
  split_ifs at hq <;>
    (try simp only [Option.some.injEq] at hq) <;>
    first
      | (right; exact ght8Plate_type _ _ _ hq)
      | (left; subst hq; rfl)

/-- The five-card hand of C8's counterexample: four natural hearts 3-4-5-6
plus the wild heart level card (level 2). -/
def wildSFCards : List Card :=
  [mkCard Hearts 3 "h3", mkCard Hearts 4 "h4", mkCard Hearts 5 "h5", mkCard Hearts 6 "h6",
   { suit := Hearts, rank := 2, id := "h2w", isLevelCard := true, isWild := true }]

/-- C8 counterexample: a same-suit run completed by a wild card IS classified
as StraightFlush — `getHandType` inspects only the non-wild cards' suits and
ranks, so hearts 3-4-5-6 plus the wild heart 2 classifies as the 3-to-7
StraightFlush even though the hand is not natural. -/
theorem claim8_counterexample :
    (wildSFCards.filter (fun c => c.isWild)).length = 1 ∧
    getHandType wildSFCards 2 =
      some { type := HandType.StraightFlush, cards := wildSFCards, value := 7,
             bombCount := some 5 } := by
  decide

lemma ght6_sf_inversion (cards : List Card) (level len : ℕ) (nonWilds : List Card)
    (h : Hand) (hq : ght6Straight cards level len nonWilds = some (some h))
    (hsf : h.type = HandType.StraightFlush) :
    len = 5 ∧
    nonWilds.any (fun c => RankAce < c.rank) = false ∧
    (let ranks := (nonWilds.map (fun c => if c.rank = level then level else c.rank)).filter
        (fun r => r ≤ RankAce)
     ranks ≠ [] ∧ ranks.dedup.length = ranks.length ∧
       computeStraightVal ranks ≠ -1 ∧ h.value = (computeStraightVal ranks).toNat) ∧
    (nonWilds.map Card.suit).dedup.length ≤ 1 ∧
    h.bombCount = some 5 := by
  simp only [ght6Straight] at hq
  split_ifs at hq <;> (try simp only [Option.some.injEq] at hq) <;> (try subst hq) <;> simp_all

/-- C8 amended: `getHandType` returns StraightFlush only for 5-card inputs
whose NON-wild cards all have ranks `≤ Ace`, pairwise-distinct ranks fitting
a five-window (A-high or A-low, via the straight-value computation, which
also fixes the hand's value), at least one non-wild card, and at most one
distinct suit among the non-wild cards; wild cards may complete the run, so
naturalness is NOT required — the suit test simply never looks at wilds. -/
theorem claim8_amended (cards : List Card) (level : ℕ) (h : Hand)
    (hg : getHandType cards level = some h)
    (hsf : h.type = HandType.StraightFlush) :
    cards.length = 5 ∧
    (cards.filter (fun c => !c.isWild)).any (fun c => RankAce < c.rank) = false ∧
    (let ranks := ((cards.filter (fun c => !c.isWild)).map
        (fun c => if c.rank = level then level else c.rank)).filter (fun r => r ≤ RankAce)
     ranks ≠ [] ∧ ranks.dedup.length = ranks.length ∧
       computeStraightVal ranks ≠ -1 ∧ h.value = (computeStraightVal ranks).toNat) ∧
    ((cards.filter (fun c => !c.isWild)).map Card.suit).dedup.length ≤ 1 ∧
    h.bombCount = some 5 := by
  simp only [getHandType] at hg
  split at hg
  · exact absurd hg (by simp)
  · split at hg
    case _ r heq =>
      subst hg
      have := ght1_type _ _ _ heq
      simp [hsf] at this
    case _ hne1 =>
    split at hg
    case _ r heq =>
      subst hg
      have := ght2_type _ _ _ _ heq
      simp [hsf] at this
    case _ hne2 =>
    split at hg
    case _ r heq =>
      subst hg
      have := ght3_type _ _ _ _ _ _ heq
      simp [hsf] at this
    case _ hne3 =>
    split at hg
    case _ r heq =>
      subst hg
      have := ght4_type _ _ _ _ _ _ heq
      simp [hsf] at this
    case _ hne4 =>
    split at hg
    case _ r heq =>
      subst hg
      have := ght5_type _ _ _ _ _ _ _ heq
      rcases this with h5 | h5 <;> simp [hsf] at h5
    case _ hne5 =>
    split at hg
    case _ r heq =>
      subst hg
      have h6 := ght6_sf_inversion _ _ _ _ _ heq hsf
      exact ⟨h6.1, h6.2.1, h6.2.2.1, h6.2.2.2⟩
    case _ hne6 =>
    split at hg
    case _ r heq =>
      subst hg
      have := ght7_type _ _ _ _ _ _ heq
      simp [hsf] at this
    case _ hne7 =>
    split at hg
    case _ r heq =>
      subst hg
      have := ght8_type _ _ _ _ heq
      rcases this with h8 | h8 <;> simp [hsf] at h8
    case _ hne8 =>
      exact absurd hg (by simp)

/-- The engine's own classification of the single ♠3 at level 2. -/
def smallSingleHand : Hand :=
  { type := HandType.Single, cards := [cardSpade3], value := 3 }

/-- A client-supplied classification of the same single ♠3 with a forged
value of 100. -/
def inflatedSingleHand : Hand :=
  { type := HandType.Single, cards := [cardSpade3], value := 100 }

/-- The single ♠A classification standing as the last play. -/
def aceSingleHand : Hand :=
  { type := HandType.Single, cards := [cardSpadeA], value := 14 }

/-- A Playing-phase deal where seat 0 just led the single ♠A and seat 1 is on
turn holding ♠3 and ♠4. -/
def clientHandState : GameState :=
  { level := 2, currentPhase := GamePhase.Playing,
    hands := fun i =>
      if i = 1 then [cardSpade3, cardSpade4]
      else if i = 0 then [cardSpade5]
      else if i = 2 then [mkCard Spades 12 "q2c"]
      else [mkCard Spades 11 "j3c"],
    currentTurn := 1, lastHand := some { playerIndex := 0, hand := aceSingleHand },
    passCount := 0, roundActions := fun _ => none, winners := [],
    tributeState := {}, prevWinners := [], activeTeam := 0,
    skipNextTurn := fun _ => false, playersBot := fun _ => false }

unseal Rat.sub in
/-- C1 counterexample: seat 1 answers the ♠A single with the ♠3 single but
supplies a forged classification of value 100; the engine's own
classification of the submitted cards compares strictly BELOW the last play,
yet the play is accepted — the comparison used the client-supplied
classification, contradicting the claim that acceptance requires
`compareHands(getHandType(cards, level), lastPlay.hand) > 0`. -/
theorem claim1_counterexample :
    getHandType [cardSpade3] 2 = some smallSingleHand ∧
    compareHands smallSingleHand aceSingleHand < 0 ∧
    (handlePlayHand clientHandState 1 [cardSpade3] (some inflatedSingleHand)).2 =
      PlayResult.accepted := by
  decide

/-- C1 amended: with lastPlay set by another seat and the submitted cards
classifying to SOME legal hand, the comparator is applied to the
classification the engine uses — the client-supplied `handType` when one is
present (so acceptance CAN depend on a client-supplied classification),
and the engine's own classification only when none is supplied; 'Hand not
big enough' is returned exactly when that comparison is not strictly
positive. -/
theorem claim1_amended (st : GameState) (seatIndex : ℕ) (cards : List Card)
    (ph ih : Hand) (j : ℕ) (lh : Hand)
    (hphase : st.currentPhase = GamePhase.Playing)
    (hturn : st.currentTurn = seatIndex)
    (hlast : st.lastHand = some { playerIndex := j, hand := lh })
    (hj : j ≠ seatIndex)
    (hih : getHandType cards st.level = some ih) :
    ((handlePlayHand st seatIndex cards (some ph)).2 =
        PlayResult.rejected "Hand not big enough" ↔ compareHands ph lh ≤ 0) ∧
    ((handlePlayHand st seatIndex cards (some ph)).2 = PlayResult.accepted →
      0 < compareHands ph lh) ∧
    ((handlePlayHand st seatIndex cards none).2 = PlayResult.accepted →
      0 < compareHands ih lh) := by
  simp only [handlePlayHand, hphase, hturn, hlast, hih, Option.any_some, Option.getD_some]
  refine ⟨?_, ?_, ?_⟩
  · by_cases hc : compareHands ph lh ≤ 0
    · simp [hc, hj]
    · by_cases hm : (cards.all
          (fun c => (st.hands seatIndex).any (fun phc => phc.id == c.id))) = true
      · simp [hc, hj, hm]
      · simp [hc, hj, hm]
  · by_cases hc : compareHands ph lh ≤ 0
    · simp [hc, hj]
    · by_cases hm : (cards.all
          (fun c => (st.hands seatIndex).any (fun phc => phc.id == c.id))) = true
      · simp [hc, hj, hm, not_le.mp hc]
      · simp [hc, hj, hm]
  · by_cases hc : compareHands ih lh ≤ 0
    · simp [hc, hj]
    · by_cases hm : (cards.all
          (fun c => (st.hands seatIndex).any (fun phc => phc.id == c.id))) = true
      · simp [hc, hj, hm, not_le.mp hc]
      · simp [hc, hj, hm]

unseal Rat.sub in
/-- C1 amended witness: at the concrete deal of the counterexample the forged
classification is accepted, and the acceptance indeed comes with a strictly
positive comparison of the CLIENT's classification (value 100) against the
♠A single. -/
theorem claim1_amended_witness :
    ((handlePlayHand clientHandState 1 [cardSpade3] (some inflatedSingleHand)).2 =
        PlayResult.rejected "Hand not big enough" ↔
      compareHands inflatedSingleHand aceSingleHand ≤ 0) ∧
    ((handlePlayHand clientHandState 1 [cardSpade3] (some inflatedSingleHand)).2 =
        PlayResult.accepted →
      0 < compareHands inflatedSingleHand aceSingleHand) ∧
    ((handlePlayHand clientHandState 1 [cardSpade3] none).2 = PlayResult.accepted →
      0 < compareHands smallSingleHand aceSingleHand) :=
  claim1_amended clientHandState 1 [cardSpade3] inflatedSingleHand smallSingleHand
    0 aceSingleHand rfl rfl rfl (by decide) (by decide)

/-- A Playing-phase deal with bot seat 1 on turn after seat 0's ♠A single;
the bot holds ♠3 and ♠4, which form no legal hand when played together. -/
def botStallState : GameState :=
  { level := 2, currentPhase := GamePhase.Playing,
    hands := fun i =>
      if i = 1 then [cardSpade3, cardSpade4]
      else if i = 0 then [cardSpade5]
      else if i = 2 then [mkCard Spades 12 "q2d"]
      else [mkCard Spades 11 "j3d"],
    currentTurn := 1, lastHand := some { playerIndex := 0, hand := aceSingleHand },
    passCount := 0, roundActions := fun _ => none, winners := [],
    tributeState := {}, prevWinners := [], activeTeam := 0,
    skipNextTurn := fun _ => false, playersBot := fun i => i == 1 }

/-- C10 counterexample: the bot strategy returns ♠3+♠4, which the engine's
validation rejects as an invalid hand; the engine does NOT treat this as a
pass — the state is returned unchanged, the turn stays on the bot's seat and
no pass is recorded for the trick, so the deal stalls on the bot's seat. -/
theorem claim10_counterexample :
    (handlePlayHand botStallState 1 [cardSpade3, cardSpade4] none).2 =
      PlayResult.rejected "Invalid hand" ∧
    handleBotTurn botStallState 1 (some [cardSpade3, cardSpade4]) = botStallState ∧
    (handleBotTurn botStallState 1 (some [cardSpade3, cardSpade4])).currentTurn = 1 ∧
    (handleBotTurn botStallState 1 (some [cardSpade3, cardSpade4])).roundActions 1 =
      none := by
  refine ⟨by decide, rfl, by decide, rfl⟩

lemma handlePlayHand_rejected_state (st : GameState) (seatIndex : ℕ)
    (cards : List Card) (providedHandType : Option Hand) (msg : String)
    (h : (handlePlayHand st seatIndex cards providedHandType).2 =
      PlayResult.rejected msg) :
    (handlePlayHand st seatIndex cards providedHandType).1 = st := by
  unfold handlePlayHand at h ⊢
  repeat' split
  all_goals simp_all
  all_goals try (
    rcases providedHandType with _ | ph1 <;>
      rcases hg2 : getHandType cards st.level with _ | ih1 <;>
      simp_all [apply_ite])
  all_goals try (
    intro hx
    split at h
    · rename_i hC
      exact absurd (hx hC.1) (not_lt.mpr hC.2)
    · simp_all)

/-- C10 amended: when the bot strategy's returned play is rejected by the
engine's validation (for any of the private error messages), `handleBotTurn`
leaves the deal state completely unchanged: no pass is recorded and the turn
does not advance — only a `null` (pass) response from the strategy advances
the trick.  (The claim's "treated as a pass" behaviour does not exist.) -/
theorem claim10_amended (st : GameState) (seatIndex : ℕ) (cards : List Card)
    (msg : String)
    (hphase : st.currentPhase = GamePhase.Playing)
    (hturn : st.currentTurn = seatIndex)
    (hhand : (st.hands seatIndex).length ≠ 0)
    (hrej : (handlePlayHand st seatIndex cards none).2 = PlayResult.rejected msg) :
    handleBotTurn st seatIndex (some cards) = st := by
  unfold handleBotTurn
  rw [if_neg (by simp [hphase]), if_neg (by simp [hturn]), if_neg hhand]
  exact handlePlayHand_rejected_state st seatIndex cards none msg hrej

/-- A second stalled-bot deal (bot at seat 2 under seat 1's ♠A single) used
to witness the amended C10. -/
def botStallState2 : GameState :=
  { level := 2, currentPhase := GamePhase.Playing,
    hands := fun i =>
      if i = 2 then [cardSpade4, cardSpade5]
      else if i = 1 then [cardSpade3]
      else if i = 0 then [mkCard Spades 12 "q2e"]
      else [mkCard Spades 11 "j3e"],
    currentTurn := 2, lastHand := some { playerIndex := 1, hand := aceSingleHand },
    passCount := 0, roundActions := fun _ => none, winners := [],
    tributeState := {}, prevWinners := [], activeTeam := 0,
    skipNextTurn := fun _ => false, playersBot := fun i => i == 2 }

/-- C10 amended witness: the bot at seat 2 returns the illegal ♠4+♠5 pair and
the engine leaves the deal state untouched. -/
theorem claim10_amended_witness :
    handleBotTurn botStallState2 2 (some [cardSpade4, cardSpade5]) = botStallState2 :=
  claim10_amended botStallState2 2 [cardSpade4, cardSpade5] "Invalid hand"
    rfl rfl (by decide) (by decide)

/-- The identity tags of every card currently held in the four hands
(the deal's conserved quantity: played and tributed cards leave through these
lists and nothing else stores cards). -/
def allHandIds (hs : ℕ → List Card) : List String :=
  (hs 0 ++ hs 1 ++ hs 2 ++ hs 3).map Card.id

/-- A BigJoker card object that is in nobody's hand. -/
def foreignBigJoker : Card := mkCard JokerSuit RankBigJoker "joker-big-x"

/-- A Tribute-phase deal: seat 3 owes seat 0 a tribute; each seat holds one
spade. -/
def tributePhaseState : GameState :=
  { level := 2, currentPhase := GamePhase.Tribute,
    hands := fun i =>
      if i = 0 then [cardSpadeA]
      else if i = 3 then [cardSpade5]
      else if i = 1 then [cardSpade4]
      else [cardSpade3],
    currentTurn := 0, lastHand := none, passCount := 0,
    roundActions := fun _ => none, winners := [],
    tributeState := { pendingTributes := [{ fromSeat := 3, toSeat := 0 }] },
    prevWinners := [0, 1, 2, 3], activeTeam := 0,
    skipNextTurn := fun _ => false, playersBot := fun _ => false }

/-- C2 counterexample: seat 3 pays its tribute with a BigJoker object that is
NOT in its hand.  `handleTribute` only compares the submitted card's logic
value (21, passing the must-pay-largest check) and never verifies ownership,
so the filter removes nothing from seat 3 and the recipient gains a card from
nowhere: the four hands grow from 4 to 5 cards and the multiset union no
longer equals the dealt cards. -/
theorem claim2_counterexample :
    (handleTribute tributePhaseState 3 [foreignBigJoker]).2 = PlayResult.accepted ∧
    foreignBigJoker.id ∉ allHandIds tributePhaseState.hands ∧
    (allHandIds tributePhaseState.hands).length = 4 ∧
    (allHandIds (handleTribute tributePhaseState 3 [foreignBigJoker]).1.hands).length =
      5 := by
  decide

lemma endGame_hands (st : GameState) : (endGame st).hands = st.hands := rfl

lemma endRoundAndFindNext_hands (st : GameState) (winner : ℕ) :
    (endRoundAndFindNext st winner).hands = st.hands := by
  unfold endRoundAndFindNext
  dsimp only
  split <;> rfl

lemma advanceTurnLoop_hands :
    ∀ (fuel : ℕ) (st : GameState) (next : ℕ),
      (advanceTurnLoop st next fuel).hands = st.hands := by
  intro fuel
  induction fuel with
  | zero =>
    intro st next
    rfl
  | succ n ih =>
    intro st next
    unfold advanceTurnLoop
    split
    · exact endRoundAndFindNext_hands _ _
    · split
      · exact ih _ _
      · split
        · exact ih _ _
        · rfl

lemma advanceTurn_hands (st : GameState) : (advanceTurn st).hands = st.hands :=
  advanceTurnLoop_hands 4 st _

lemma checkReturnDone_hands (st : GameState) :
    (checkReturnDone st).hands = st.hands := by
  unfold checkReturnDone
  split <;> rfl

lemma applyPlay_hands (st : GameState) (seatIndex : ℕ) (cards : List Card)
    (hand : Hand) :
    (applyPlay st seatIndex cards hand).hands =
      updHand st.hands seatIndex ((st.hands seatIndex).filter
        (fun c => !(cards.any (fun played => played.id == c.id)))) := by
  unfold applyPlay
  dsimp only
  repeat' split
  all_goals first
    | rfl
    | exact advanceTurn_hands _

lemma count_filter_not_any (hand cards : List Card) (x : String) :
    ((hand.filter (fun c => !(cards.any (fun p => p.id == c.id)))).map Card.id).count x =
      if cards.any (fun p => p.id == x) then 0
      else ((hand.map Card.id).count x) := by
  induction hand with
  | nil => simp
  | cons c t ih =>
    by_cases hc2 : (cards.any (fun p => p.id == x)) = true <;>
      by_cases hc : (cards.any (fun p => p.id == c.id)) = true <;>
        by_cases hx : c.id = x <;>
          simp_all [List.count_cons] <;>
          first
            | (obtain ⟨p, hp, hpx⟩ := hc; exact absurd hpx (hc2 p hp))
            | (rw [if_neg fun hex => by
                obtain ⟨p, hp, hpx⟩ := hex
                exact hc2 p hp hpx])

lemma count_filter_single (hand : List Card) (a x : String) :
    ((hand.filter (fun c => !(c.id == a))).map Card.id).count x =
      if x = a then 0 else (hand.map Card.id).count x := by
  induction hand with
  | nil => simp
  | cons c t ih =>
    by_cases hc : c.id = a <;>
      by_cases hx : c.id = x <;>
        simp_all [List.count_cons]

lemma count_sortCards (l : List Card) (level : ℕ) (x : String) :
    ((sortCards l level).map Card.id).count x = (l.map Card.id).count x :=
  List.Perm.count_eq ((List.perm_insertionSort (cardLe level) l).map Card.id) x

lemma allHandIds_count_upd (hs : ℕ → List Card) (seat : ℕ) (v : List Card)
    (x : String) (hseat : seat < 4) :
    (allHandIds (updHand hs seat v)).count x + ((hs seat).map Card.id).count x =
      (allHandIds hs).count x + (v.map Card.id).count x := by
  unfold allHandIds updHand
  interval_cases seat <;> simp [List.count_append] <;> omega

lemma moveCard_count_perm (hs : ℕ → List Card) (seat toSeat : ℕ) (c0 : Card)
    (level : ℕ) (hseat : seat < 4) (hto : toSeat < 4)
    (hnodup : ((hs seat).map Card.id).Nodup)
    (hmem : c0.id ∈ (hs seat).map Card.id) :
    (allHandIds (updHand
        (updHand hs seat ((hs seat).filter (fun c => !(c.id == c0.id)))) toSeat
        (sortCards ((updHand hs seat ((hs seat).filter (fun c => !(c.id == c0.id))))
            toSeat ++ [c0]) level))).Perm
      (allHandIds hs) := by
  rw [List.perm_iff_count]
  intro x
  have h1 := allHandIds_count_upd hs seat
    ((hs seat).filter (fun c => !(c.id == c0.id))) x hseat
  have h2 := allHandIds_count_upd
    (updHand hs seat ((hs seat).filter (fun c => !(c.id == c0.id)))) toSeat
    (sortCards ((updHand hs seat ((hs seat).filter (fun c => !(c.id == c0.id))))
        toSeat ++ [c0]) level) x hto
  have h3 := count_sortCards
    ((updHand hs seat ((hs seat).filter (fun c => !(c.id == c0.id)))) toSeat ++ [c0])
    level x
  rw [List.map_append, List.count_append] at h3
  have h5 := count_filter_single (hs seat) c0.id x
  by_cases hx : x = c0.id
  · have hcnt : ((hs seat).map Card.id).count x = 1 :=
      List.count_eq_one_of_mem hnodup (hx ▸ hmem)
    have hc0 : ([c0].map Card.id).count x = 1 := by simp [hx]
    rw [if_pos hx] at h5
    omega
  · have hc0 : ([c0].map Card.id).count x = 0 := by simp [hx]
    rw [if_neg hx] at h5
    omega

lemma handlePlayHand_accepted_state (st : GameState) (seatIndex : ℕ)
    (cards : List Card) (providedHandType : Option Hand)
    (h : (handlePlayHand st seatIndex cards providedHandType).2 =
      PlayResult.accepted) :
    (cards.all (fun c => (st.hands seatIndex).any (fun phc => phc.id == c.id))) = true ∧
    ∃ hand, (handlePlayHand st seatIndex cards providedHandType).1 =
      applyPlay st seatIndex cards hand := by
  unfold handlePlayHand at h ⊢
  split at h
  · exact absurd h (by simp)
  · rename_i hph
    split at h
    · exact absurd h (by simp)
    · rename_i htn
      rw [if_neg hph, if_neg htn]
      rcases providedHandType with _ | ph <;>
        rcases hg : getHandType cards st.level with _ | ih <;>
        (try rw [hg] at h) <;>
        (try rw [hg]) <;>
        dsimp only at h ⊢
      · exact absurd h (by simp)
      · split at h
        · exact absurd h (by simp)
        · split at h
          · exact absurd h (by simp)
          · rename_i hcmp hmemB
            refine ⟨by simpa using hmemB, ?_⟩
            rw [if_neg hcmp, if_neg hmemB]
            exact ⟨_, rfl⟩
      · exact absurd h (by simp)
      · split at h
        · exact absurd h (by simp)
        · split at h
          · exact absurd h (by simp)
          · rename_i hcmp hmemB
            refine ⟨by simpa using hmemB, ?_⟩
            rw [if_neg hcmp, if_neg hmemB]
            exact ⟨_, rfl⟩

lemma handleTribute_accepted_state (st : GameState) (seatIndex : ℕ)
    (cards : List Card)
    (h : (handleTribute st seatIndex cards).2 = PlayResult.accepted) :
    ∃ t, st.tributeState.pendingTributes.find?
        (fun t => t.fromSeat == seatIndex && t.card.isNone) = some t ∧
      t ∈ st.tributeState.pendingTributes ∧
      (handleTribute st seatIndex cards).1.hands =
        updHand (updHand st.hands seatIndex ((st.hands seatIndex).filter
            (fun c => !(c.id == (cards.headD default).id)))) t.toSeat
          (sortCards ((updHand st.hands seatIndex ((st.hands seatIndex).filter
              (fun c => !(c.id == (cards.headD default).id)))) t.toSeat ++
            [cards.headD default]) st.level) := by
  unfold handleTribute at h ⊢
  split at h
  · exact absurd h (by simp)
  · rename_i hph
    split at h
    · exact absurd h (by simp)
    · rename_i hlen
      rw [if_neg hph, if_neg hlen]
      split at h
      · exact absurd h (by simp)
      · rename_i t heqf
        rw [heqf]
        dsimp only at h ⊢
        split at h
        · exact absurd h (by simp)
        · rename_i hval
          rw [if_neg hval]
          refine ⟨t, rfl, List.mem_of_find?_eq_some heqf, ?_⟩
          split <;> rfl

lemma handleReturnTribute_accepted_state (st : GameState) (seatIndex : ℕ)
    (cards : List Card)
    (h : (handleReturnTribute st seatIndex cards).2 = PlayResult.accepted) :
    ∃ r, st.tributeState.pendingReturns.find?
        (fun r => r.fromSeat == seatIndex && r.card.isNone) = some r ∧
      r ∈ st.tributeState.pendingReturns ∧
      (handleReturnTribute st seatIndex cards).1.hands =
        updHand (updHand st.hands seatIndex ((st.hands seatIndex).filter
            (fun c => !(c.id == (cards.headD default).id)))) r.toSeat
          (sortCards ((updHand st.hands seatIndex ((st.hands seatIndex).filter
              (fun c => !(c.id == (cards.headD default).id)))) r.toSeat ++
            [cards.headD default]) st.level) := by
  unfold handleReturnTribute at h ⊢
  split at h
  · exact absurd h (by simp)
  · rename_i hph
    split at h
    · exact absurd h (by simp)
    · rename_i hlen
      rw [if_neg hph, if_neg hlen]
      split at h
      · exact absurd h (by simp)
      · rename_i r heqf
        rw [heqf]
        dsimp only at h ⊢
        refine ⟨r, rfl, List.mem_of_find?_eq_some heqf, ?_⟩
        rw [checkReturnDone_hands]

/-- C2 amended: within a deal the three card-moving operations preserve the
multiset of card identities across the four hands, PROVIDED the request is
well-formed: an accepted play removes exactly the distinct played cards from
the player's (duplicate-free) hand, and an accepted tribute or
return-tribute moves one card that really is in the sender's hand (the
engine itself checks ownership only for plays, never for tributes, which is
what the counterexample exploits). -/
theorem claim2_amended :
    (∀ (st : GameState) (seatIndex : ℕ) (cards : List Card)
        (providedHandType : Option Hand),
      seatIndex < 4 →
      ((st.hands seatIndex).map Card.id).Nodup →
      (cards.map Card.id).Nodup →
      (handlePlayHand st seatIndex cards providedHandType).2 = PlayResult.accepted →
      ((allHandIds (handlePlayHand st seatIndex cards providedHandType).1.hands) ++
        cards.map Card.id).Perm (allHandIds st.hands)) ∧
    (∀ (st : GameState) (seatIndex : ℕ) (cards : List Card),
      seatIndex < 4 →
      (∀ t ∈ st.tributeState.pendingTributes, t.toSeat < 4) →
      ((st.hands seatIndex).map Card.id).Nodup →
      (cards.headD default).id ∈ (st.hands seatIndex).map Card.id →
      (handleTribute st seatIndex cards).2 = PlayResult.accepted →
      (allHandIds (handleTribute st seatIndex cards).1.hands).Perm
        (allHandIds st.hands)) ∧
    (∀ (st : GameState) (seatIndex : ℕ) (cards : List Card),
      seatIndex < 4 →
      (∀ r ∈ st.tributeState.pendingReturns, r.toSeat < 4) →
      ((st.hands seatIndex).map Card.id).Nodup →
      (cards.headD default).id ∈ (st.hands seatIndex).map Card.id →
      (handleReturnTribute st seatIndex cards).2 = PlayResult.accepted →
      (allHandIds (handleReturnTribute st seatIndex cards).1.hands).Perm
        (allHandIds st.hands)) := by
  refine ⟨?_, ?_, ?_⟩
  · intro st seatIndex cards providedHandType hseat hnodH hnodC hacc
    obtain ⟨hmem, hand, heq⟩ :=
      handlePlayHand_accepted_state st seatIndex cards providedHandType hacc
    rw [heq, applyPlay_hands, List.perm_iff_count]
    intro x
    rw [List.count_append]
    have h1 := allHandIds_count_upd st.hands seatIndex
      ((st.hands seatIndex).filter
        (fun c => !(cards.any (fun played => played.id == c.id)))) x hseat
    have h2 := count_filter_not_any (st.hands seatIndex) cards x
    by_cases hx : (cards.any (fun p => p.id == x)) = true
    · have hxparts : ∃ p ∈ cards, p.id = x := by
        simpa only [List.any_eq_true, beq_iff_eq] using hx
      obtain ⟨p1, hp1, hpx1⟩ := hxparts
      have hxc : x ∈ cards.map Card.id := List.mem_map.mpr ⟨p1, hp1, hpx1⟩
      have hcnt1 : (cards.map Card.id).count x = 1 :=
        List.count_eq_one_of_mem hnodC hxc
      have hxh : x ∈ (st.hands seatIndex).map Card.id := by
        simp only [List.all_eq_true] at hmem
        have hq := hmem p1 hp1
        simp only [List.any_eq_true, beq_iff_eq] at hq
        obtain ⟨q, hq1, hq2⟩ := hq
        exact List.mem_map.mpr ⟨q, hq1, hpx1 ▸ hq2⟩
      have hcnth := List.count_eq_one_of_mem hnodH hxh
      rw [if_pos hx] at h2
      omega
    · have hc0 : (cards.map Card.id).count x = 0 := by
        rw [List.count_eq_zero]
        intro hxm
        obtain ⟨p1, hp1, hpx1⟩ := List.mem_map.mp hxm
        refine hx ?_
        simp only [List.any_eq_true, beq_iff_eq]
        exact ⟨p1, hp1, hpx1⟩
      rw [if_neg hx] at h2
      omega
  · intro st seatIndex cards hseat hto hnodH hmem hacc
    obtain ⟨t, _hfind, htin, heq⟩ := handleTribute_accepted_state st seatIndex cards hacc
    rw [heq]
    exact moveCard_count_perm st.hands seatIndex t.toSeat (cards.headD default)
      st.level hseat (hto t htin) hnodH hmem
  · intro st seatIndex cards hseat hto hnodH hmem hacc
    obtain ⟨r, _hfind, hrin, heq⟩ :=
      handleReturnTribute_accepted_state st seatIndex cards hacc
    rw [heq]
    exact moveCard_count_perm st.hands seatIndex r.toSeat (cards.headD default)
      st.level hseat (hto r hrin) hnodH hmem

/-- A Playing-phase free lead: seat 0 to play with no last hand. -/
def freeLeadState : GameState :=
  { level := 2, currentPhase := GamePhase.Playing,
    hands := fun i =>
      if i = 0 then [cardSpade5, cardSpade3]
      else if i = 1 then [cardSpade4]
      else if i = 2 then [mkCard Spades 12 "q2f"]
      else [mkCard Spades 11 "j3f"],
    currentTurn := 0, lastHand := none, passCount := 0,
    roundActions := fun _ => none, winners := [],
    tributeState := {}, prevWinners := [], activeTeam := 0,
    skipNextTurn := fun _ => false, playersBot := fun _ => false }

/-- A ReturnTribute-phase deal: seat 0 owes seat 3 one returned card. -/
def returnPhaseState : GameState :=
  { level := 2, currentPhase := GamePhase.ReturnTribute,
    hands := fun i =>
      if i = 0 then [cardSpadeA, cardSpade4]
      else if i = 3 then [cardSpade5]
      else if i = 1 then [cardSpade3]
      else [mkCard Spades 12 "q2g"],
    currentTurn := 0, lastHand := none, passCount := 0,
    roundActions := fun _ => none, winners := [],
    tributeState := { pendingReturns := [{ fromSeat := 0, toSeat := 3 }] },
    prevWinners := [0, 1, 2, 3], activeTeam := 0,
    skipNextTurn := fun _ => false, playersBot := fun _ => false }

/-- C2 amended witness: a concrete accepted free-lead play, a concrete
accepted tribute of an owned card, and a concrete accepted return-tribute all
preserve the hand-multiset. -/
theorem claim2_amended_witness :
    ((allHandIds (handlePlayHand freeLeadState 0 [cardSpade5] none).1.hands) ++
      [cardSpade5].map Card.id).Perm (allHandIds freeLeadState.hands) ∧
    (allHandIds (handleTribute tributePhaseState 3 [cardSpade5]).1.hands).Perm
      (allHandIds tributePhaseState.hands) ∧
    (allHandIds (handleReturnTribute returnPhaseState 0 [cardSpade4]).1.hands).Perm
      (allHandIds returnPhaseState.hands) :=
  ⟨claim2_amended.1 freeLeadState 0 [cardSpade5] none (by decide) (by decide)
      (by decide) (by decide),
   claim2_amended.2.1 tributePhaseState 3 [cardSpade5] (by decide) (by decide)
      (by decide) (by decide) (by decide),
   claim2_amended.2.2 returnPhaseState 0 [cardSpade4] (by decide) (by decide)
      (by decide) (by decide) (by decide)⟩

/-- The all-natural hearts 3-to-7 straight flush used as the C8 witness. -/
def naturalSFCards : List Card :=
  [mkCard Hearts 3 "n3", mkCard Hearts 4 "n4", mkCard Hearts 5 "n5",
   mkCard Hearts 6 "n6", mkCard Hearts 7 "n7"]

/-- C8 amended witness: instantiating the amended claim at the natural
hearts 3-7 straight flush at level 2. -/
theorem claim8_amended_witness :
    naturalSFCards.length = 5 ∧
    (naturalSFCards.filter (fun c => !c.isWild)).any (fun c => RankAce < c.rank) = false ∧
    (let ranks := ((naturalSFCards.filter (fun c => !c.isWild)).map
        (fun c => if c.rank = 2 then 2 else c.rank)).filter (fun r => r ≤ RankAce)
     ranks ≠ [] ∧ ranks.dedup.length = ranks.length ∧
       computeStraightVal ranks ≠ -1 ∧
       ({ type := HandType.StraightFlush, cards := naturalSFCards, value := 7,
          bombCount := some 5 } : Hand).value = (computeStraightVal ranks).toNat) ∧
    ((naturalSFCards.filter (fun c => !c.isWild)).map Card.suit).dedup.length ≤ 1 ∧
    ({ type := HandType.StraightFlush, cards := naturalSFCards, value := 7,
       bombCount := some 5 } : Hand).bombCount = some 5 :=
  claim8_amended naturalSFCards 2
    { type := HandType.StraightFlush, cards := naturalSFCards, value := 7,
      bombCount := some 5 }
    (by decide) rfl

